import Mathlib

/-!
Shallow embedding of the postgres-cxx-client connection-pool library.

Sources embedded directly:
* `src/src/Worker.cpp`                          — Worker destructor and thread loop
* `src/include/postgres/internal/Visitors.h`    — `TypesCollector`, `CastedPlaceholdersCollector`
* `src/include/postgres/Enum.h`                 — `postgres::Enum` marker

Components whose implementation files are not part of the source tree
(Channel, Client, Receiver, Transaction, Connection, Context, Oid.h) are
modelled from the specification; each such definition carries a doc comment
starting with `Modelled from the spec:`.
-/

/-- Modelled from the spec: the type OID constants from `postgres/Oid.h` (the header is not
under the source tree; the names are those used by `Visitors.h` and the unit tests). Each
constructor stands for a distinct numeric OID. -/
inductive Oid where
  | BOOLOID
  | FLOAT4OID
  | FLOAT8OID
  | INT2OID
  | INT4OID
  | INT8OID
  | TEXTOID
  | TEXTARRAYOID
  | TIMESTAMPOID
  | UNKNOWNOID
deriving DecidableEq, Repr

/-- The C++ field types that the visitors of `Visitors.h` can be instantiated at:
arithmetic types (bool, floating point, signed and unsigned integers with their
`sizeof`), `std::string`, `std::vector<std::string>`,
`std::chrono::system_clock::time_point`, `std::optional<T>`, a type derived from
`postgres::Enum` (carrying its static `name`), and `std::vector` of such an
Enum-derived type. -/
inductive CppType where
  | bool
  | floating (size : Nat)
  | signed (size : Nat)
  | unsigned (size : Nat)
  | string
  | vecString
  | timePoint
  | option (t : CppType)
  | enum (name : String)
  | vecEnum (name : String)
deriving DecidableEq, Repr

/-- Embedding of `TypesCollector::oid_of` (Visitors.h:106-163), one equation per C++
overload, following the overload resolution for an argument of type `T*`. -/
def oid_of : CppType → Oid
  | .bool => .BOOLOID
  | .floating size => if size ≤ 4 then .FLOAT4OID else .FLOAT8OID
  | .signed size =>
      if size ≤ 2 then .INT2OID else if size ≤ 4 then .INT4OID else .INT8OID
  | .unsigned size =>
      if size ≤ 2 then .INT2OID else if size ≤ 4 then .INT4OID else .INT8OID
  | .string => .TEXTOID
  | .vecString => .TEXTARRAYOID
  | .timePoint => .TIMESTAMPOID
  | .option t => oid_of t
  | .enum _ => .UNKNOWNOID
  | .vecEnum _ => .UNKNOWNOID

/-- Embedding of `TypesCollector` (Visitors.h:98-165): `accept<T>` pushes `oid_of(T*)`
for each visited field, so visiting a field list yields the list of their OIDs. -/
def typesCollector (fields : List CppType) : List Oid :=
  fields.map oid_of

/-- Embedding of `CastedPlaceholdersCollector::needs_casting` (Visitors.h:202-214) at an
argument of type `T*`. The generic overload returns `{T::name, false}` when `T` derives
from `postgres::Enum` and `{nullptr, false}` otherwise. The `std::vector` overload takes a
parameter of type `std::vector<T>**` (pointer-to-pointer), which a `T*` argument can never
match, so for `T = std::vector<Enum-derived>` the generic overload is selected and
`is_base_of<Enum, vector<T>>` is false. -/
def needs_casting : CppType → Option String × Bool
  | .enum name => (some name, false)
  | _ => (none, false)

/-- Embedding of `CastedPlaceholdersCollector::accept` (Visitors.h:181-196): append
`"$"` or `",$"` depending on whether the accumulated string is empty, then the
incremented index, then, when `needs_casting` yields a type, `"::"`, the type, and
`"[]"` when the array flag is set. State is `(idx, res)`. -/
def castedAccept (s : Nat × String) (t : CppType) : Nat × String :=
  let idx := s.1 + 1
  let base := s.2 ++ (if s.2 = "" then "$" else ",$") ++ toString idx
  match needs_casting t with
  | (some ty, isArr) => (idx, base ++ "::" ++ ty ++ (if isArr then "[]" else ""))
  | (none, _) => (idx, base)

/-- Result string of running `CastedPlaceholdersCollector` (initial state
`idx = 0`, `res = ""`) over a list of visited field types. -/
def castedPlaceholders (fields : List CppType) : String :=
  (fields.foldl castedAccept (0, "")).2

/-- Spec-side definition for claim C10: the placeholder for the field at (1-based)
position `i` — `"$i"`, with the cast suffix `"::<T::name>"` exactly when the scalar
field type derives from `postgres::Enum`. -/
def specPlaceholder (i : Nat) (t : CppType) : String :=
  "$" ++ toString i ++ (match t with | .enum name => "::" ++ name | _ => "")

/-- Spec-side definition for claim C10: the placeholders of the visited fields in visit
order, the field after position `n` first. -/
def specList : Nat → List CppType → List String
  | _, [] => []
  | n, t :: ts => specPlaceholder (n + 1) t :: specList (n + 1) ts

/-- Spec-side definition for claim C10: comma-separation of a list of strings. -/
def specJoin : List String → String
  | [] => ""
  | [x] => x
  | x :: y :: ts => x ++ "," ++ specJoin (y :: ts)

/-- Spec-side definition for claim C10: the comma-separated placeholders
`"$1,...,$n"` in visit order, with cast suffixes per `specPlaceholder`. -/
def specPlaceholders (fields : List CppType) : String :=
  specJoin (specList 0 fields)

/-- Outcome of running a Job's work function: a value, or a raised failure. -/
inductive Outcome (R : Type) where
  | ok (r : R)
  | err (msg : String)
deriving DecidableEq, Repr

/-- Modelled from the spec: a Job — `{ run: Fn(Handle) -> T, completion: DeferredHandle<T> }`.
The work function is a state transformer on the connection returning its outcome (a raised
failure is an `Outcome.err`); the deferred handle is identified by `jid`, and fulfilling it
is recorded in the worker's completion log. -/
structure Job (C R : Type) where
  jid : Nat
  run : C → Outcome R × C

/-- The connection operations that `Worker::run`'s loop uses: `Connection::isOk` and
`Connection::reset` (which reports success and yields the connection's new state).
The `Connection` implementation is not under the source tree, so the operations are
kept abstract. -/
structure ConnOps (C : Type) where
  isOk : C → Bool
  reset : C → Bool × C

/-- Embedding of the thread loop of `Worker::run` (Worker.cpp:35-46). The receive
stream is the sequence of `chan_->receive(slot_)` results: `some j` delivers a Job,
`none` (or stream end) delivers an empty `slot_.job`, upon which the loop breaks.
For a Job: execute it (`slot_.job(conn)`), fulfill its completion with the outcome
(recorded in the returned log), then `if (!conn.isOk() && !conn.reset()) break;`.
The returned flag records that `chan_->recycle(*this)` runs after the loop. -/
def workerRun (ops : ConnOps C) : List (Option (Job C R)) → C → List (Nat × Outcome R) × Bool
  | [], _ => ([], true)
  | none :: _, _ => ([], true)
  | some j :: rest, conn =>
      let p := j.run conn
      if ops.isOk p.2 then
        let r := workerRun ops rest p.2
        ((j.jid, p.1) :: r.1, r.2)
      else
        let q := ops.reset p.2
        if q.1 then
          let r := workerRun ops rest q.2
          ((j.jid, p.1) :: r.1, r.2)
        else
          ([(j.jid, p.1)], true)

/-- The Jobs that the loop of `workerRun` actually dequeues and executes before it
breaks, on the same receive stream and initial connection state. -/
def workerDequeued (ops : ConnOps C) : List (Option (Job C R)) → C → List (Job C R)
  | [], _ => []
  | none :: _, _ => []
  | some j :: rest, conn =>
      let p := j.run conn
      if ops.isOk p.2 then
        j :: workerDequeued ops rest p.2
      else
        let q := ops.reset p.2
        if q.1 then
          j :: workerDequeued ops rest q.2
        else
          [j]

/-- The shutdown policies of `postgres::ShutdownPolicy` (Context.h, used by
Worker.cpp:16-25). -/
inductive ShutdownPolicy where
  | graceful
  | drop
  | abort
deriving DecidableEq, Repr

/-- What `Worker::~Worker` does to the worker's thread. -/
inductive ThreadAction where
  | join
  | detach
  | noop
deriving DecidableEq, Repr

/-- Embedding of `Worker::~Worker` (Worker.cpp:14-28): when the thread is joinable,
join on `GRACEFUL` and `DROP`, detach on `ABORT`; otherwise do nothing. -/
def workerTeardown (joinable : Bool) (policy : ShutdownPolicy) : ThreadAction :=
  if joinable then
    match policy with
    | .graceful => .join
    | .drop => .join
    | .abort => .detach
  else .noop

/-- Modelled from the spec: the pool configuration fields of `Context` that the Channel
consults on enqueue — `maxQueueSize: Option<uint>` (`none` = unbounded). The `Context`
and `Channel` implementation files are not under the source tree. -/
structure PoolCfg where
  maxQueueSize : Option Nat

/-- Modelled from the spec: `Channel.enqueue(job) -> Ok | QueueFull` — append a Job if
the current pending count is below `maxQueueSize` (unbounded when unset); otherwise fail
immediately (`none`), never blocking the caller. -/
def chanEnqueue (cfg : PoolCfg) (queue : List (Job C R)) (j : Job C R) :
    Option (List (Job C R)) :=
  match cfg.maxQueueSize with
  | none => some (queue ++ [j])
  | some m => if queue.length < m then some (queue ++ [j]) else none

/-- Errors a deferred handle can be completed with at submission time. -/
inductive SubmitError where
  | queueFull
deriving DecidableEq, Repr

/-- Modelled from the spec: `Client.submit(work)` — build a Job from the work and a fresh
deferred handle and call `Channel.enqueue`; on `QueueFull` the deferred handle is
immediately completed with a capacity error. The result is the new queue paired with the
returned handle's immediate completion (`none` = still pending, to be fulfilled by a
Worker). The function is total, so the call never blocks. -/
def clientSubmit (cfg : PoolCfg) (queue : List (Job C R)) (j : Job C R) :
    List (Job C R) × Option SubmitError :=
  match chanEnqueue cfg queue j with
  | some q => (q, none)
  | none => (queue, some .queueFull)

/-- Modelled from the spec: the Receiver protocol states
`{Sending, Busy, HasResult, Done}`. -/
inductive RecvState where
  | sending
  | busy
  | hasResult
  | done
deriving DecidableEq, Repr

/-- Modelled from the spec: the async-session view of a connection handle — the state of
the Receiver currently active on it, if any. -/
structure AsyncHandle where
  activeReceiver : Option RecvState

/-- Protocol-level errors of the async interface. -/
inductive AsyncError where
  | protocolMisuse
deriving DecidableEq, Repr

/-- Modelled from the spec: `send(handle, statement, args)` — fails with a
protocol-misuse error if another Receiver is already active (not `Done`) on the same
handle; on success the fresh Receiver transitions to `Busy` and the call returns
immediately. -/
def connSend (h : AsyncHandle) : Except AsyncError AsyncHandle :=
  match h.activeReceiver with
  | some s => if s = .done then .ok ⟨some .busy⟩ else .error .protocolMisuse
  | none => .ok ⟨some .busy⟩

/-- A prepared statement as listed in the `Context`: name, body, argument types. -/
structure PrepStmt where
  name : String
  body : String
deriving DecidableEq, Repr

/-- Modelled from the spec: the per-pool `Context` as `Worker::run` uses it — the
prepared-statement replay list, plus whether establishing a connection with its
parameters currently fails (the environment's behaviour). -/
structure WContext where
  preparings : List PrepStmt
  connectFails : Bool

/-- A pool connection as seen by the Worker loop: the statements prepared on it and
the health state driving `isOk`/`reset`. -/
structure PConn where
  prepared : List PrepStmt
  healthy : Bool
  resetWorks : Bool
deriving DecidableEq, Repr

/-- Connection-establishment failure. -/
inductive ConnectError where
  | connectError
deriving DecidableEq, Repr

/-- Modelled from the spec: `Context`'s connect as captured by
`ctx_->connect()` in Worker.cpp:34 — establish a fresh connection using the `Context`'s
parameters, then replay every prepared statement in the `Context`'s list against it;
report a failure instead when the connection cannot be established. -/
def contextConnect (ctx : WContext) : Except ConnectError PConn :=
  if ctx.connectFails then .error .connectError
  else .ok ⟨ctx.preparings, true, true⟩

/-- Embedding of `Worker::run` (Worker.cpp:30-48): evaluate `ctx_->connect()` first (it
is the lambda's capture initializer); a connection failure is fatal — the thread loop is
never entered and the failure propagates. On success the loop `workerRun` starts on the
fresh connection. -/
def workerRunFull (ctx : WContext) (ops : ConnOps PConn)
    (stream : List (Option (Job PConn R))) :
    Except ConnectError (List (Nat × Outcome R) × Bool) :=
  match contextConnect ctx with
  | .error e => .error e
  | .ok conn => .ok (workerRun ops stream conn)

/-- An atomic SQL statement; `select n` stands for `SELECT n`, which yields the single
row `[n]`. A semicolon-combined statement is the list of its atomic statements. -/
inductive Stmt where
  | select (n : Nat)
deriving DecidableEq, Repr

/-- A fully readable query result: its rows. -/
structure QueryResult where
  rows : List (List Nat)
deriving DecidableEq, Repr

/-- Database-side evaluation of one atomic statement. -/
def runStmt : Stmt → QueryResult
  | .select n => ⟨[[n]]⟩

/-- Runtime errors of statement execution. -/
inductive PgError where
  | runtimeError
deriving DecidableEq, Repr

/-- Modelled from the spec: `Connection::exec` (implementation not under the source
tree). Per the documentation at usage.cpp:327-339 (`execMultiBad`), `exec` executes
only one statement at a time: passing a semicolon-combined statement is a runtime
error. -/
def connExec : List Stmt → Except PgError QueryResult
  | [s] => .ok (runStmt s)
  | _ => .error .runtimeError

/-- Result of `execRaw`: the number of statements executed. Per usage.cpp:350-360, data
read is completely disabled for raw execution, so the result carries no rows. -/
structure RawResult where
  executed : Nat
deriving DecidableEq, Repr

/-- The row data retrievable from a raw result: none, by design (usage.cpp:352,360 —
"you are not allowed to obtain data ... completely disable data read"). -/
def RawResult.rowData (_ : RawResult) : List (List Nat) := []

/-- Modelled from the spec: `Connection::execRaw` (implementation not under the source
tree). Per usage.cpp:341-360 (`execMultiOk`), a semicolon-combined statement is accepted
and executed, and only a result with data read disabled is returned. -/
def connExecRaw (stmts : List Stmt) : Except PgError RawResult :=
  .ok ⟨stmts.length⟩

/-- Modelled from the spec: the session state a Transaction manipulates — the committed
database state (list of applied effects) and the staged effects of the open transaction,
if one is open. -/
structure TxSession where
  db : List String
  pending : Option (List String)
deriving DecidableEq, Repr

/-- Modelled from the spec: `Transaction` — `{ handle: borrowed, committed: bool }`. -/
structure Transaction where
  committed : Bool
deriving DecidableEq, Repr

/-- Modelled from the spec: `begin(handle)` — issue a begin-statement, opening an empty
staging area, and construct the Transaction with `committed = false`. -/
def txBegin (s : TxSession) : TxSession × Transaction :=
  ({ s with pending := some [] }, ⟨false⟩)

/-- Modelled from the spec: executing a statement on the connection while a transaction
is open stages its effect; outside a transaction each statement commits by itself. -/
def txExec (s : TxSession) (eff : String) : TxSession :=
  match s.pending with
  | some l => { s with pending := some (l ++ [eff]) }
  | none => { db := s.db ++ [eff], pending := none }

/-- Modelled from the spec: `commit()` — issue a commit-statement, applying the staged
effects to the database, and mark the Transaction `committed`. -/
def txCommit (s : TxSession) (tx : Transaction) : TxSession × Transaction :=
  match s.pending with
  | some l => (⟨s.db ++ l, none⟩, { tx with committed := true })
  | none => (s, tx)

/-- Modelled from the spec: dropping a Transaction — when `commit()` has not succeeded,
issue a rollback-statement (discarding the staged effects); when it has, do nothing.
The returned flag records whether a rollback was issued. -/
def txDrop (s : TxSession) (tx : Transaction) : TxSession × Bool :=
  if tx.committed then (s, false)
  else ({ s with pending := none }, true)

/-- The cast suffix `castedAccept` appends for one field type: what `needs_casting`
yields, rendered as in Visitors.h:187-194. -/
def castSuffix (t : CppType) : String :=
  match needs_casting t with
  | (some ty, isArr) => "::" ++ ty ++ (if isArr then "[]" else "")
  | (none, _) => ""

/-- The part of the collected placeholder string contributed by the fields after
position `n`, each preceded by its separating comma. -/
def castTail : Nat → List CppType → String
  | _, [] => ""
  | n, t :: ts => ",$" ++ toString (n + 1) ++ castSuffix t ++ castTail (n + 1) ts

/-- A concrete connection model for witnesses: the connection state is its health flag,
`isOk` reads it, and `reset` always fails. -/
def demoOps : ConnOps Bool :=
  ⟨fun b => b, fun _ => (false, false)⟩

/-- A concrete connection model for witnesses where `reset` always succeeds and yields a
healthy connection. -/
def demoOpsResetOk : ConnOps Bool :=
  ⟨fun b => b, fun _ => (true, true)⟩

/-- A concrete Job for witnesses: succeeds with value 42 and leaves the connection
state unchanged. -/
def demoJobOk : Job Bool Nat :=
  ⟨3, fun c => (.ok 42, c)⟩

/-- A concrete Job for witnesses: raises a failure and leaves the connection broken. -/
def demoJobBreak : Job Bool Nat :=
  ⟨7, fun _ => (.err "boom", false)⟩

/-- Concrete connection operations on `PConn` for witnesses: `isOk` reads the health
flag, `reset` succeeds when the connection's reset works. -/
def demoPOps : ConnOps PConn :=
  ⟨fun c => c.healthy, fun c => (c.resetWorks, { c with healthy := c.resetWorks })⟩

/-- Helper: appending to a nonempty string yields a nonempty string. -/
theorem str_append_ne_empty (a b : String) (h : a ≠ "") : a ++ b ≠ "" := by
  intro hc
  apply h
  apply String.ext
  have hd := congrArg String.data hc
  rw [String.data_append] at hd
  exact (List.append_eq_nil.mp hd).1

/-- Helper: merging the separating comma with the placeholder dollar sign. -/
theorem comma_dollar_merge (x : String) : "," ++ ("$" ++ x) = ",$" ++ x := by
  have h : ("," ++ "$" : String) = ",$" := rfl
  rw [← String.append_assoc, h]

/-- Helper: folding `castedAccept` over the remaining fields starting from a nonempty
accumulated string appends exactly the comma-separated tail of placeholders. -/
theorem foldl_castedAccept (ts : List CppType) :
    ∀ (n : Nat) (res : String), res ≠ "" →
      (ts.foldl castedAccept (n, res)).2 = res ++ castTail n ts := by
  induction ts with
  | nil =>
      intro n res h
      simp [castTail]
  | cons t rest ih =>
      intro n res h
      rw [List.foldl_cons]
      have hacc : castedAccept (n, res) t
          = (n + 1, res ++ (",$" ++ (toString (n + 1) ++ castSuffix t))) := by
        cases t <;> simp [castedAccept, needs_casting, castSuffix, h, String.append_assoc]
      rw [hacc]
      rw [ih (n + 1) _ (str_append_ne_empty _ _ h)]
      simp [castTail, String.append_assoc]

/-- Helper: the spec-side comma-separation of the placeholders after position `n`,
prefixed by an already-rendered first placeholder, equals that placeholder followed by
the collector's tail string. -/
theorem specJoin_specList (ts : List CppType) :
    ∀ (n : Nat) (x : String), specJoin (x :: specList n ts) = x ++ castTail n ts := by
  induction ts with
  | nil =>
      intro n x
      simp [specList, specJoin, castTail]
  | cons t rest ih =>
      intro n x
      simp only [specList, specJoin]
      rw [ih]
      cases t <;>
        simp [specPlaceholder, castSuffix, needs_casting, castTail, String.append_assoc,
          comma_dollar_merge]

/-- Claim C1: every Job the Worker dequeues is executed and its deferred handle is
fulfilled with the outcome of its work function — also when the work function raises a
failure — exactly once: the completion log of the Worker loop agrees pointwise with the
list of dequeued Jobs (first conjunct), and a dequeued Job's completion is recorded
with exactly its run outcome, value or failure (second conjunct). -/
theorem worker_fulfills_each_dequeued_job {C R : Type} (ops : ConnOps C)
    (stream : List (Option (Job C R))) (conn : C) :
    ((workerRun ops stream conn).1.map Prod.fst
      = (workerDequeued ops stream conn).map Job.jid)
    ∧ ∀ (j : Job C R) (rest : List (Option (Job C R))),
        (workerRun ops (some j :: rest) conn).1.head? = some (j.jid, (j.run conn).1) := by
  constructor
  · induction stream generalizing conn with
    | nil => simp [workerRun, workerDequeued]
    | cons head rest ih =>
        cases head with
        | none => simp [workerRun, workerDequeued]
        | some j =>
            by_cases h1 : ops.isOk (j.run conn).2
            · simp [workerRun, workerDequeued, h1, ih]
            · by_cases h2 : (ops.reset (j.run conn).2).1
              · simp [workerRun, workerDequeued, h1, h2, ih]
              · simp [workerRun, workerDequeued, h1, h2]
  · intro j rest
    by_cases h1 : ops.isOk (j.run conn).2
    · simp [workerRun, h1]
    · by_cases h2 : (ops.reset (j.run conn).2).1
      · simp [workerRun, h1, h2]
      · simp [workerRun, h1, h2]

/-- Claim C4: in the Worker loop, after executing a Job the Worker proceeds to dequeue
the next Job exactly when the connection is healthy or, when unhealthy, `reset`
succeeds; when the connection is unhealthy and `reset` also fails, the Worker exits the
loop and reports itself retired to the Channel (the recycle flag of the result). -/
theorem worker_continues_iff_healthy_or_reset {C R : Type} (ops : ConnOps C)
    (j : Job C R) (rest : List (Option (Job C R))) (conn : C) :
    (ops.isOk (j.run conn).2 = true →
      workerRun ops (some j :: rest) conn =
        ((j.jid, (j.run conn).1) :: (workerRun ops rest (j.run conn).2).1,
         (workerRun ops rest (j.run conn).2).2))
    ∧ (ops.isOk (j.run conn).2 = false → (ops.reset (j.run conn).2).1 = true →
      workerRun ops (some j :: rest) conn =
        ((j.jid, (j.run conn).1) :: (workerRun ops rest (ops.reset (j.run conn).2).2).1,
         (workerRun ops rest (ops.reset (j.run conn).2).2).2))
    ∧ (ops.isOk (j.run conn).2 = false → (ops.reset (j.run conn).2).1 = false →
      workerRun ops (some j :: rest) conn = ([(j.jid, (j.run conn).1)], true)) := by
  refine ⟨?_, ?_, ?_⟩
  · intro h1
    simp [workerRun, h1]
  · intro h1 h2
    simp [workerRun, h1, h2]
  · intro h1 h2
    simp [workerRun, h1, h2]

/-- Witness for claim C4: the three branches at concrete connections and Jobs — a
healthy connection continues, a broken connection whose reset succeeds continues, and a
broken connection whose reset fails makes the loop exit retired after fulfilling the
Job's completion. -/
theorem worker_continues_iff_healthy_or_reset_witness :
    workerRun demoOps [some demoJobOk] true
      = ((3, Outcome.ok 42) :: (workerRun demoOps ([] : List (Option (Job Bool Nat))) true).1,
         (workerRun demoOps ([] : List (Option (Job Bool Nat))) true).2)
    ∧ workerRun demoOpsResetOk [some demoJobBreak] true
      = ((7, Outcome.err "boom")
           :: (workerRun demoOpsResetOk ([] : List (Option (Job Bool Nat))) true).1,
         (workerRun demoOpsResetOk ([] : List (Option (Job Bool Nat))) true).2)
    ∧ workerRun demoOps [some demoJobBreak] true = ([(7, Outcome.err "boom")], true) :=
  ⟨(worker_continues_iff_healthy_or_reset demoOps demoJobOk [] true).1 rfl,
   (worker_continues_iff_healthy_or_reset demoOpsResetOk demoJobBreak [] true).2.1 rfl rfl,
   (worker_continues_iff_healthy_or_reset demoOps demoJobBreak [] true).2.2 rfl rfl⟩

/-- Claim C7: on Worker teardown a still-joinable thread is joined under the Graceful
and Drop shutdown policies and detached under Abort (and nothing happens when the
thread is not joinable); and after the thread function's loop ends — on every exit path
— the Worker reports itself retired to the Channel. -/
theorem worker_teardown_policy_and_recycle :
    (∀ p : ShutdownPolicy,
        workerTeardown true p = (if p = ShutdownPolicy.abort then .detach else .join))
    ∧ (∀ p : ShutdownPolicy, workerTeardown false p = .noop)
    ∧ (∀ (C R : Type) (ops : ConnOps C) (stream : List (Option (Job C R))) (conn : C),
        (workerRun ops stream conn).2 = true) := by
  refine ⟨?_, ?_, ?_⟩
  · intro p
    cases p <;> rfl
  · intro p
    simp [workerTeardown]
  · intro C R ops stream conn
    induction stream generalizing conn with
    | nil => simp [workerRun]
    | cons head rest ih =>
        cases head with
        | none => simp [workerRun]
        | some j =>
            by_cases h1 : ops.isOk (j.run conn).2
            · simp [workerRun, h1, ih]
            · by_cases h2 : (ops.reset (j.run conn).2).1
              · simp [workerRun, h1, h2, ih]
              · simp [workerRun, h1, h2]

/-- Claim C9: `TypesCollector` maps a field of type `std::optional<T>` to exactly the
same type OID as a field of type `T` itself, and maps every field whose type derives
from `postgres::Enum`, as well as every `std::vector` of such an Enum-derived type, to
`UNKNOWNOID`. -/
theorem types_collector_optional_and_enum (t : CppType) (name : String) :
    typesCollector [CppType.option t] = typesCollector [t]
    ∧ typesCollector [CppType.enum name] = [Oid.UNKNOWNOID]
    ∧ typesCollector [CppType.vecEnum name] = [Oid.UNKNOWNOID] := by
  refine ⟨?_, rfl, rfl⟩
  simp [typesCollector, oid_of]

/-- Claim C10: for every sequence of visited fields, `CastedPlaceholdersCollector`
produces the comma-separated placeholders `$1,...,$n` in visit order, where a scalar
field whose type derives from `postgres::Enum` carries the cast suffix `::<T::name>`
and a `std::vector` of an Enum-derived type receives a plain placeholder with no cast
suffix (its `needs_casting` overload takes a pointer-to-pointer and is never
selected). -/
theorem casted_placeholders_match_spec (fields : List CppType) :
    castedPlaceholders fields = specPlaceholders fields := by
  cases fields with
  | nil => rfl
  | cons t rest =>
      unfold castedPlaceholders specPlaceholders
      rw [List.foldl_cons]
      have hacc : castedAccept (0, "") t = (1, "$" ++ (toString 1 ++ castSuffix t)) := by
        cases t <;> simp [castedAccept, needs_casting, castSuffix, String.append_assoc]
      rw [hacc]
      have hne : ("$" ++ (toString 1 ++ castSuffix t)) ≠ "" :=
        str_append_ne_empty _ _ (by decide)
      rw [foldl_castedAccept rest 1 _ hne]
      simp only [specList]
      rw [specJoin_specList]
      cases t <;>
        simp [specPlaceholder, castSuffix, needs_casting, String.append_assoc]

/-- Claim C3: a `submit` call never blocks the caller (the model is a total function of
the current queue): when the pending-Job count is below `maxQueueSize` — or the bound is
unset — the Job is appended to the queue and the fresh deferred handle stays pending;
otherwise the submission fails immediately, with the returned deferred handle completed
with a capacity error. -/
theorem submit_appends_or_completes_capacity_error {C R : Type} (cfg : PoolCfg)
    (queue : List (Job C R)) (j : Job C R) :
    (cfg.maxQueueSize = none → clientSubmit cfg queue j = (queue ++ [j], none))
    ∧ (∀ m, cfg.maxQueueSize = some m → queue.length < m →
        clientSubmit cfg queue j = (queue ++ [j], none))
    ∧ (∀ m, cfg.maxQueueSize = some m → ¬ queue.length < m →
        clientSubmit cfg queue j = (queue, some SubmitError.queueFull)) := by
  refine ⟨?_, ?_, ?_⟩
  · intro h
    simp [clientSubmit, chanEnqueue, h]
  · intro m hm hlt
    simp [clientSubmit, chanEnqueue, hm, hlt]
  · intro m hm hge
    simp [clientSubmit, chanEnqueue, hm, hge]

/-- Witness for claim C3: with `maxQueueSize = 0` a submission to the empty queue is
rejected with the capacity error; with `maxQueueSize = 5` it is appended and the
deferred handle stays pending. -/
theorem submit_appends_or_completes_capacity_error_witness :
    clientSubmit ⟨some 0⟩ ([] : List (Job Bool Nat)) demoJobOk
      = ([], some SubmitError.queueFull)
    ∧ clientSubmit ⟨some 5⟩ ([] : List (Job Bool Nat)) demoJobOk = ([demoJobOk], none) :=
  ⟨(submit_appends_or_completes_capacity_error ⟨some 0⟩ [] demoJobOk).2.2 0 rfl (by decide),
   (submit_appends_or_completes_capacity_error ⟨some 5⟩ [] demoJobOk).2.1 5 rfl (by decide)⟩

/-- Claim C5: initiating a second asynchronous send on a handle whose current Receiver
has not reached `Done` fails with the protocol-misuse error, and once the current
Receiver has reached `Done`, a new send on the same handle succeeds (yielding a fresh
busy Receiver). -/
theorem send_single_flight (h : AsyncHandle) (s : RecvState)
    (hs : h.activeReceiver = some s) :
    (s ≠ RecvState.done → connSend h = .error AsyncError.protocolMisuse)
    ∧ (s = RecvState.done →
        ∃ h2, connSend h = .ok h2 ∧ h2.activeReceiver = some RecvState.busy) := by
  constructor
  · intro hnd
    simp [connSend, hs, hnd]
  · intro hd
    refine ⟨⟨some RecvState.busy⟩, ?_, rfl⟩
    simp [connSend, hs, hd]

/-- Witness for claim C5: a handle with a busy Receiver rejects a second send with the
protocol-misuse error, and a handle whose Receiver is done accepts a new send. -/
theorem send_single_flight_witness :
    connSend ⟨some RecvState.busy⟩ = .error AsyncError.protocolMisuse
    ∧ ∃ h2, connSend ⟨some RecvState.done⟩ = .ok h2
        ∧ h2.activeReceiver = some RecvState.busy :=
  ⟨(send_single_flight ⟨some RecvState.busy⟩ RecvState.busy rfl).1 (by decide),
   (send_single_flight ⟨some RecvState.done⟩ RecvState.done rfl).2 rfl⟩

/-- Claim C6: when establishing the fresh connection at the start of `Worker::run`
fails, the failure is fatal for this Worker instance — the result is the connection
error for every Job stream, so the Job-processing loop is never entered and no Job is
ever executed; when it succeeds, the loop starts on a connection against which every
prepared statement of the Context's list has been replayed. -/
theorem worker_connect_failure_is_fatal {R : Type} (ctx : WContext) (ops : ConnOps PConn)
    (stream : List (Option (Job PConn R))) :
    (ctx.connectFails = true →
      workerRunFull ctx ops stream = .error ConnectError.connectError)
    ∧ (ctx.connectFails = false →
      workerRunFull ctx ops stream
        = .ok (workerRun ops stream ⟨ctx.preparings, true, true⟩)) := by
  constructor
  · intro h
    simp [workerRunFull, contextConnect, h]
  · intro h
    simp [workerRunFull, contextConnect, h]

/-- Witness for claim C6: a Context whose connect fails yields the fatal connection
error with no loop output; one whose connect succeeds enters the loop on a connection
carrying the replayed prepared statement. -/
theorem worker_connect_failure_is_fatal_witness :
    workerRunFull (R := Nat) ⟨[⟨"p1", "SELECT 1"⟩], true⟩ demoPOps []
      = .error ConnectError.connectError
    ∧ workerRunFull (R := Nat) ⟨[⟨"p1", "SELECT 1"⟩], false⟩ demoPOps []
      = .ok (workerRun demoPOps [] ⟨[⟨"p1", "SELECT 1"⟩], true, true⟩) :=
  ⟨(worker_connect_failure_is_fatal ⟨[⟨"p1", "SELECT 1"⟩], true⟩ demoPOps []).1 rfl,
   (worker_connect_failure_is_fatal ⟨[⟨"p1", "SELECT 1"⟩], false⟩ demoPOps []).2 rfl⟩

/-- Helper: executing statements while a transaction is open only stages their
effects. -/
theorem txExec_foldl (effs : List String) :
    ∀ (db l : List String), effs.foldl txExec ⟨db, some l⟩ = ⟨db, some (l ++ effs)⟩ := by
  induction effs with
  | nil => intro db l; simp
  | cons e rest ih =>
      intro db l
      rw [List.foldl_cons]
      have h1 : txExec ⟨db, some l⟩ e = ⟨db, some (l ++ [e])⟩ := rfl
      rw [h1, ih]
      simp

/-- Claim C8: a Transaction dropped without a successful `commit()` issues a rollback
and leaves the database state unchanged; a Transaction on which `commit()` succeeded and
that is then dropped issues no rollback and leaves all its statements' effects
applied. -/
theorem transaction_drop_rollback_semantics (db effs : List String) :
    (let s1 := (txBegin ⟨db, none⟩).1
     let tx := (txBegin ⟨db, none⟩).2
     let s2 := effs.foldl txExec s1
     (txDrop s2 tx).2 = true ∧ (txDrop s2 tx).1.db = db)
    ∧ (let s1 := (txBegin ⟨db, none⟩).1
       let tx := (txBegin ⟨db, none⟩).2
       let s2 := effs.foldl txExec s1
       let s3 := (txCommit s2 tx).1
       let tx2 := (txCommit s2 tx).2
       (txDrop s3 tx2).2 = false ∧ (txDrop s3 tx2).1.db = db ++ effs) := by
  have hfold : effs.foldl txExec ⟨db, some []⟩ = ⟨db, some effs⟩ := by
    rw [txExec_foldl effs db []]
    simp
  refine ⟨?_, ?_⟩ <;>
    simp [txBegin, txCommit, txDrop, hfold]

/-- Counterexample to claim C2: issuing the combined statement
`SELECT 1; SELECT 2` through `exec` does not succeed — it is a runtime error
(usage.cpp:330-339, `execMultiBad`). -/
theorem exec_combined_statement_errors :
    connExec [Stmt.select 1, Stmt.select 2] = .error PgError.runtimeError := rfl

/-- Claim C2 as amended: `exec("SELECT 1; SELECT 2")` fails with a runtime error (a
single statement still succeeds); the combined statement must go through `execRaw`,
which succeeds but returns a result from which no row data is retrievable — not even
from the final statement. -/
theorem exec_combined_statement_raw_only :
    connExec [Stmt.select 1, Stmt.select 2] = .error PgError.runtimeError
    ∧ connExec [Stmt.select 1] = .ok ⟨[[1]]⟩
    ∧ connExecRaw [Stmt.select 1, Stmt.select 2] = .ok ⟨2⟩
    ∧ RawResult.rowData ⟨2⟩ = [] :=
  ⟨rfl, rfl, rfl, rfl⟩
